import Mathlib

/-!
Verification of the camera choreography solver and pointer-edit geometry of a
screen-recording editor.  The definitions below are a shallow embedding of the
authoritative revision of `src/components/Editor/Canvas.tsx` (the revision with
overlays, crop and drag events).  All JavaScript numbers are modelled as exact
rationals (`ℚ`); the arithmetic in the source is rational on rational inputs.
-/

/-- The event types of `ZoomEventType` in `src/types.ts`. -/
inductive EventType where
  | click
  | double_click
  | focus
  | drag
  | selection
  | generic
deriving DecidableEq, Repr

/-- The camera-speed setting `EditorConfig.zoomSpeed` from `src/types.ts`. -/
inductive ZoomSpeed where
  | slow
  | default
  | fast
deriving DecidableEq, Repr

/-- The fields of `EditorConfig` (src/types.ts) consumed by the camera math:
`zoom` (the static zoom level), `autoZoom`, and `zoomSpeed`. -/
structure EditorConfig where
  zoom : ℚ
  autoZoom : Bool
  zoomSpeed : ZoomSpeed
deriving DecidableEq, Repr

/-- `ZoomEvent` from `src/types.ts`; `xEnd`/`yEnd` are the optional drag end
coordinates (`undefined` is modelled as `none`). -/
structure ZoomEvent where
  type : EventType
  startTime : ℚ
  duration : ℚ
  x : ℚ
  y : ℚ
  xEnd : Option ℚ
  yEnd : Option ℚ
  scale : ℚ
deriving DecidableEq, Repr

/-- A camera pose: the normalized point held at viewport center and the
magnification.  Mirrors the `{ x, y, zoom }` records of `Canvas.tsx`. -/
structure CameraPose where
  x : ℚ
  y : ℚ
  zoom : ℚ
deriving DecidableEq, Repr

/-- `clamp` from `Canvas.tsx`: `Math.max(min, Math.min(max, val))`. -/
def clamp (val lo hi : ℚ) : ℚ := max lo (min hi val)

/-- `lerp` from `Canvas.tsx`: `start * (1 - t) + end * t`. -/
def lerp (s e t : ℚ) : ℚ := s * (1 - t) + e * t

/-- `easeOutBack` from `Canvas.tsx`:
`c1 = 1.70158; c3 = c1 + 1; 1 + c3*(x-1)^3 + c1*(x-1)^2`. -/
def easeOutBack (x : ℚ) : ℚ :=
  let c1 : ℚ := 1.70158
  let c3 : ℚ := c1 + 1
  1 + c3 * (x - 1) ^ 3 + c1 * (x - 1) ^ 2

/-- `easeOutQuad` from `Canvas.tsx`: `1 - (1 - x) * (1 - x)`. -/
def easeOutQuad (x : ℚ) : ℚ := 1 - (1 - x) * (1 - x)

/-- The `transitionDuration = 0.35` constant of `calculateTargetCamera`. -/
def transitionDuration : ℚ := 0.35

/-- The effective event target of `calculateTargetCamera` (Canvas.tsx lines
129-136): for a drag event with both ends defined, the target moves linearly
with `dragProgress = Math.min(1, timeInEvent / duration)`; otherwise it is the
event's own `(x, y)`. -/
def effectiveEventTarget (e : ZoomEvent) (timeInEvent : ℚ) : ℚ × ℚ :=
  match e.type, e.xEnd, e.yEnd with
  | EventType.drag, some xE, some yE =>
      let dragProgress := min 1 (timeInEvent / e.duration)
      (lerp e.x xE dragProgress, lerp e.y yE dragProgress)
  | _, _, _ => (e.x, e.y)

/-- The transition-in branch of `calculateTargetCamera` (`timeInEvent <
transitionDuration`, Canvas.tsx lines 138-146). -/
def transitionPose (staticZoom : ℚ) (e : ZoomEvent) (timeInEvent : ℚ) : CameraPose :=
  let eT := effectiveEventTarget e timeInEvent
  let t := timeInEvent / transitionDuration
  let easedT := easeOutBack t
  let startZoom := staticZoom + 0.05
  let posEasedT := easeOutQuad t
  { x := 0.5 + (eT.1 - 0.5) * posEasedT
    y := 0.5 + (eT.2 - 0.5) * posEasedT
    zoom := startZoom + (e.scale - startZoom) * easedT }

/-- The hold branch of `calculateTargetCamera` (`timeInEvent ≥
transitionDuration`, Canvas.tsx lines 147-151). -/
def holdPose (e : ZoomEvent) (timeInEvent : ℚ) : CameraPose :=
  let eT := effectiveEventTarget e timeInEvent
  { x := eT.1, y := eT.2, zoom := e.scale }

/-- The anticipation (pre-zoom) branch of `calculateTargetCamera`
(Canvas.tsx lines 118-123). -/
def anticipationPose (staticZoom : ℚ) (e : ZoomEvent) (currentTime : ℚ) : CameraPose :=
  let t := (currentTime - (e.startTime - 0.2)) / 0.2
  let easedT := easeOutQuad t
  { x := 0.5 + (e.x - 0.5) * 0.1 * easedT
    y := 0.5 + (e.y - 0.5) * 0.1 * easedT
    zoom := staticZoom + 0.05 * easedT }

/-- The pre-zoom lookup of Canvas.tsx line 115:
`zoomEvents.find(e => currentTime >= e.startTime - 0.2 && currentTime < e.startTime)`. -/
def findPreZoomEvent (zoomEvents : List ZoomEvent) (currentTime : ℚ) : Option ZoomEvent :=
  zoomEvents.find? fun e =>
    decide (e.startTime - 0.2 ≤ currentTime) && decide (currentTime < e.startTime)

/-- The active-event lookup of Canvas.tsx line 116:
`zoomEvents.find(e => currentTime >= e.startTime && currentTime < e.startTime + e.duration)`. -/
def findActiveEvent (zoomEvents : List ZoomEvent) (currentTime : ℚ) : Option ZoomEvent :=
  zoomEvents.find? fun e =>
    decide (e.startTime ≤ currentTime) && decide (currentTime < e.startTime + e.duration)

/-- `calculateTargetCamera` before its final clamping step (Canvas.tsx lines
110-153): the branch on `config.autoZoom`, then `if (preZoomEvent) ... else if
(activeEvent) ...`, defaulting to the centered pose at the static zoom. -/
def calculateTargetCameraRaw (config : EditorConfig) (zoomEvents : List ZoomEvent)
    (currentTime : ℚ) : CameraPose :=
  if config.autoZoom then
    match findPreZoomEvent zoomEvents currentTime with
    | some preZoomEvent => anticipationPose config.zoom preZoomEvent currentTime
    | none =>
        match findActiveEvent zoomEvents currentTime with
        | some activeEvent =>
            let timeInEvent := currentTime - activeEvent.startTime
            if timeInEvent < transitionDuration then
              transitionPose config.zoom activeEvent timeInEvent
            else
              holdPose activeEvent timeInEvent
        | none => { x := 0.5, y := 0.5, zoom := config.zoom }
  else { x := 0.5, y := 0.5, zoom := config.zoom }

/-- `calculateTargetCamera` (Canvas.tsx lines 110-161): the phase output with
the unconditional final clamp `x,y ∈ [0.5/zoom, 1 - 0.5/zoom]`. -/
def calculateTargetCamera (config : EditorConfig) (zoomEvents : List ZoomEvent)
    (currentTime : ℚ) : CameraPose :=
  let raw := calculateTargetCameraRaw config zoomEvents currentTime
  let halfVisibleW := 0.5 / raw.zoom
  let halfVisibleH := 0.5 / raw.zoom
  { x := clamp raw.x halfVisibleW (1 - halfVisibleW)
    y := clamp raw.y halfVisibleH (1 - halfVisibleH)
    zoom := raw.zoom }

/-- `getLerpFactor` (Canvas.tsx lines 101-107). -/
def getLerpFactor (speed : ZoomSpeed) : ℚ :=
  match speed with
  | ZoomSpeed.slow => 0.03
  | ZoomSpeed.fast => 0.15
  | ZoomSpeed.default => 0.08

/-- The camera-advancing step of `animate` (Canvas.tsx lines 172-179): the
current pose is lerped componentwise toward the solver target. -/
def animateStep (config : EditorConfig) (zoomEvents : List ZoomEvent)
    (cur : CameraPose) (currentTime : ℚ) : CameraPose :=
  let target := calculateTargetCamera config zoomEvents currentTime
  let factor := getLerpFactor config.zoomSpeed
  { x := lerp cur.x target.x factor
    y := lerp cur.y target.y factor
    zoom := lerp cur.zoom target.zoom factor }

/-- The pause side effect (Canvas.tsx lines 87-95): on pausing, the current
camera is snapped to `calculateTargetCamera(video.currentTime)`, discarding the
previous current pose. -/
def pauseEffect (config : EditorConfig) (zoomEvents : List ZoomEvent)
    (_currentCamera : CameraPose) (videoTime : ℚ) : CameraPose :=
  calculateTargetCamera config zoomEvents videoTime

/-- A JavaScript number as delivered by `video.currentTime`: a finite rational
or one of the non-finite values. -/
inductive JSNumber where
  | nan
  | posInf
  | negInf
  | finite (q : ℚ)
deriving DecidableEq, Repr

/-- `Number.isFinite`. -/
def jsIsFinite : JSNumber → Bool
  | JSNumber.finite _ => true
  | _ => false

/-- The comparison `t > c` on a JavaScript number against a finite constant
(`NaN > c` is false, `Infinity > c` is true, `-Infinity > c` is false). -/
def jsGtConst : JSNumber → ℚ → Bool
  | JSNumber.finite q, c => decide (c < q)
  | JSNumber.posInf, _ => true
  | _, _ => false

/-- The rational value of a finite JavaScript number (0 for non-finite inputs,
which never reach this projection on the accepted path). -/
def jsToRat : JSNumber → ℚ
  | JSNumber.finite q => q
  | _ => 0

/-- The observable outcome of `handleTimeUpdate` when it does not return early:
the time forwarded to `onTimeUpdate`, and the snapped camera when paused
(`none` while playing: the animation loop owns the camera then). -/
structure TimeUpdateResult where
  forwardedTime : ℚ
  newCamera : Option CameraPose
deriving DecidableEq, Repr

/-- `handleTimeUpdate` (Canvas.tsx lines 188-202): the guard
`if (!Number.isFinite(t) || t > 1e6) return;` rejects the update (modelled as
`none`); otherwise the time is forwarded and, when not playing, the camera is
snapped to the solver target for that time. -/
def handleTimeUpdate (config : EditorConfig) (zoomEvents : List ZoomEvent)
    (isPlaying : Bool) (t : JSNumber) : Option TimeUpdateResult :=
  if !jsIsFinite t || jsGtConst t 1000000 then none
  else
    let currentTime := jsToRat t
    some { forwardedTime := currentTime
           newCamera :=
             if isPlaying then none
             else some (calculateTargetCamera config zoomEvents currentTime) }

/-- A corner handle of an overlay or crop resize gesture; the source passes one
of the strings `tl | tr | bl | br` (Canvas.tsx lines 488, 530). -/
inductive Handle where
  | tl
  | tr
  | bl
  | br
deriving DecidableEq, Repr

/-- `handle.includes('l')` restricted to the four corner handles. -/
def Handle.hasL : Handle → Bool
  | Handle.tl => true
  | Handle.bl => true
  | _ => false

/-- `handle.includes('r')` restricted to the four corner handles. -/
def Handle.hasR : Handle → Bool
  | Handle.tr => true
  | Handle.br => true
  | _ => false

/-- `handle.includes('t')` restricted to the four corner handles. -/
def Handle.hasT : Handle → Bool
  | Handle.tl => true
  | Handle.tr => true
  | _ => false

/-- `handle.includes('b')` restricted to the four corner handles. -/
def Handle.hasB : Handle → Bool
  | Handle.bl => true
  | Handle.br => true
  | _ => false

/-- A normalized-space rectangle `{x, y, width, height}` as carried by
`OverlayItem` and `CropState`. -/
structure Rect where
  x : ℚ
  y : ℚ
  width : ℚ
  height : ℚ
deriving DecidableEq, Repr

/-- The `resize` branch of `handleMouseMove` (Canvas.tsx lines 256-270): the
handle-dependent edge adjustments followed by the `0.05` floor on width and
height. -/
def resizeOverlayRect (handle : Handle) (initial : Rect) (dx dy : ℚ) : Rect :=
  let newX := initial.x
  let newY := initial.y
  let newW := initial.width
  let newH := initial.height
  let newX := if handle.hasL then newX + dx else newX
  let newW := if handle.hasL then newW - dx else newW
  let newW := if handle.hasR then newW + dx else newW
  let newY := if handle.hasT then newY + dy else newY
  let newH := if handle.hasT then newH - dy else newH
  let newH := if handle.hasB then newH + dy else newH
  let newW := if newW < 0.05 then (0.05 : ℚ) else newW
  let newH := if newH < 0.05 then (0.05 : ℚ) else newH
  { x := newX, y := newY, width := newW, height := newH }

/-- The `crop_resize` branch of `handleMouseMove` (Canvas.tsx lines 271-285):
the same edge adjustments, then `x` and `y` are pinned at `Math.max(0, ·)`;
width and height are passed through unfloored. -/
def cropResizeRect (handle : Handle) (initial : Rect) (dx dy : ℚ) : Rect :=
  let newX := initial.x
  let newY := initial.y
  let newW := initial.width
  let newH := initial.height
  let newX := if handle.hasL then newX + dx else newX
  let newW := if handle.hasL then newW - dx else newW
  let newW := if handle.hasR then newW + dx else newW
  let newY := if handle.hasT then newY + dy else newY
  let newH := if handle.hasT then newH - dy else newH
  let newH := if handle.hasB then newH + dy else newH
  let newX := max 0 newX
  let newY := max 0 newY
  { x := newX, y := newY, width := newW, height := newH }

/-! ## Helper lemmas -/

/-- The `0.05` floor applied by the overlay-resize branch is a lower bound. -/
theorem floor_point05_le (w : ℚ) : (0.05 : ℚ) ≤ if w < 0.05 then (0.05 : ℚ) else w := by
  split_ifs with h
  · exact le_refl _
  · exact le_of_not_lt h

/-- `clamp` lands in `[lo, hi]` whenever `lo ≤ hi`. -/
theorem clamp_bounds (v lo hi : ℚ) (h : lo ≤ hi) :
    lo ≤ clamp v lo hi ∧ clamp v lo hi ≤ hi :=
  ⟨le_max_left _ _, max_le h (min_le_left _ _)⟩

/-- The final clamp leaves the zoom component untouched. -/
theorem calculateTargetCamera_zoom (config : EditorConfig) (events : List ZoomEvent) (t : ℚ) :
    (calculateTargetCamera config events t).zoom =
      (calculateTargetCameraRaw config events t).zoom := rfl

/-- With autozoom on, a found pre-zoom event selects the anticipation branch. -/
theorem raw_of_preZoom (config : EditorConfig) (events : List ZoomEvent) (t : ℚ)
    (e : ZoomEvent) (hauto : config.autoZoom = true)
    (hpre : findPreZoomEvent events t = some e) :
    calculateTargetCameraRaw config events t = anticipationPose config.zoom e t := by
  simp [calculateTargetCameraRaw, hauto, hpre]

/-- With autozoom on, no pre-zoom event and a found active event select the
transition-in or hold branch according to `timeInEvent`. -/
theorem raw_of_active (config : EditorConfig) (events : List ZoomEvent) (t : ℚ)
    (e : ZoomEvent) (hauto : config.autoZoom = true)
    (hpre : findPreZoomEvent events t = none)
    (hact : findActiveEvent events t = some e) :
    calculateTargetCameraRaw config events t =
      if t - e.startTime < transitionDuration then
        transitionPose config.zoom e (t - e.startTime)
      else holdPose e (t - e.startTime) := by
  simp [calculateTargetCameraRaw, hauto, hpre, hact]

/-- For a non-drag event the effective target is the event's own `(x, y)`. -/
theorem effectiveEventTarget_of_ne_drag (e : ZoomEvent) (timeInEvent : ℚ)
    (h : e.type ≠ EventType.drag) :
    effectiveEventTarget e timeInEvent = (e.x, e.y) := by
  rcases e with ⟨ty, st, du, x, y, xE, yE, sc⟩
  dsimp at h
  cases ty <;> cases xE <;> cases yE <;> first | rfl | exact absurd rfl h

/-! ## Claim theorems -/

/-- C1: for every playback time, event list, static zoom and speed setting, if
the pose returned by `calculateTargetCamera` has zoom `z ≥ 1`, then its `x` and
`y` lie in `[0.5/z, 1 - 0.5/z]` (clamping is the final unconditional step); in
particular, for an event with `x = 0.05, y = 0.05, scale = 4` the solved
position is `0.125`, not `0.05`. -/
theorem solver_viewport_containment :
    (∀ (config : EditorConfig) (events : List ZoomEvent) (t : ℚ),
        1 ≤ (calculateTargetCamera config events t).zoom →
        0.5 / (calculateTargetCamera config events t).zoom
            ≤ (calculateTargetCamera config events t).x ∧
        (calculateTargetCamera config events t).x
            ≤ 1 - 0.5 / (calculateTargetCamera config events t).zoom ∧
        0.5 / (calculateTargetCamera config events t).zoom
            ≤ (calculateTargetCamera config events t).y ∧
        (calculateTargetCamera config events t).y
            ≤ 1 - 0.5 / (calculateTargetCamera config events t).zoom) ∧
    calculateTargetCamera ⟨1, true, ZoomSpeed.default⟩
        [⟨EventType.click, 0, 1, 0.05, 0.05, none, none, 4⟩] 0.5 =
      ⟨0.125, 0.125, 4⟩ := by
  constructor
  · intro config events t hz
    simp only [calculateTargetCamera] at hz ⊢
    set z := (calculateTargetCameraRaw config events t).zoom with hzdef
    have hz0 : 0 < z := lt_of_lt_of_le one_pos hz
    have h1 : 0.5 / z ≤ 0.5 := by
      rw [div_le_iff₀ hz0]; nlinarith
    have hlohi : 0.5 / z ≤ 1 - 0.5 / z := by linarith
    obtain ⟨hx1, hx2⟩ := clamp_bounds (calculateTargetCameraRaw config events t).x _ _ hlohi
    obtain ⟨hy1, hy2⟩ := clamp_bounds (calculateTargetCameraRaw config events t).y _ _ hlohi
    exact ⟨hx1, hx2, hy1, hy2⟩
  · norm_num [calculateTargetCamera, calculateTargetCameraRaw, findPreZoomEvent,
      findActiveEvent, List.find?, holdPose, transitionPose, transitionDuration,
      effectiveEventTarget, clamp, lerp]

/-- C1 witness: the containment bounds instantiated at the scenario-C input,
where the returned zoom is 4. -/
theorem solver_viewport_containment_witness :
    0.5 / (calculateTargetCamera ⟨1, true, ZoomSpeed.default⟩
        [⟨EventType.click, 0, 1, 0.05, 0.05, none, none, 4⟩] 0.5).zoom
      ≤ (calculateTargetCamera ⟨1, true, ZoomSpeed.default⟩
        [⟨EventType.click, 0, 1, 0.05, 0.05, none, none, 4⟩] 0.5).x ∧
    (calculateTargetCamera ⟨1, true, ZoomSpeed.default⟩
        [⟨EventType.click, 0, 1, 0.05, 0.05, none, none, 4⟩] 0.5).x
      ≤ 1 - 0.5 / (calculateTargetCamera ⟨1, true, ZoomSpeed.default⟩
        [⟨EventType.click, 0, 1, 0.05, 0.05, none, none, 4⟩] 0.5).zoom ∧
    0.5 / (calculateTargetCamera ⟨1, true, ZoomSpeed.default⟩
        [⟨EventType.click, 0, 1, 0.05, 0.05, none, none, 4⟩] 0.5).zoom
      ≤ (calculateTargetCamera ⟨1, true, ZoomSpeed.default⟩
        [⟨EventType.click, 0, 1, 0.05, 0.05, none, none, 4⟩] 0.5).y ∧
    (calculateTargetCamera ⟨1, true, ZoomSpeed.default⟩
        [⟨EventType.click, 0, 1, 0.05, 0.05, none, none, 4⟩] 0.5).y
      ≤ 1 - 0.5 / (calculateTargetCamera ⟨1, true, ZoomSpeed.default⟩
        [⟨EventType.click, 0, 1, 0.05, 0.05, none, none, 4⟩] 0.5).zoom :=
  solver_viewport_containment.1 ⟨1, true, ZoomSpeed.default⟩
    [⟨EventType.click, 0, 1, 0.05, 0.05, none, none, 4⟩] 0.5
    (by norm_num [calculateTargetCamera, calculateTargetCameraRaw, findPreZoomEvent,
      findActiveEvent, List.find?, holdPose, transitionPose, transitionDuration,
      effectiveEventTarget])

/-- C2 counterexample: at `t = 6` the event starting at 5 (duration 2) is
active, yet the solver returns the anticipation pose of the event starting at
6.1 (zoom 1.0375); with only the active event present the solver would return
its hold zoom 2.  So anticipation, not the active event, takes precedence. -/
theorem active_event_precedence_counterexample :
    ((⟨EventType.click, 5, 2, 0.5, 0.5, none, none, 2⟩ : ZoomEvent).startTime ≤ 6 ∧
      (6 : ℚ) < (⟨EventType.click, 5, 2, 0.5, 0.5, none, none, 2⟩ : ZoomEvent).startTime +
        (⟨EventType.click, 5, 2, 0.5, 0.5, none, none, 2⟩ : ZoomEvent).duration) ∧
    (calculateTargetCamera ⟨1, true, ZoomSpeed.default⟩
        [⟨EventType.click, 5, 2, 0.5, 0.5, none, none, 2⟩,
         ⟨EventType.click, 6.1, 1, 0.9, 0.9, none, none, 3⟩] 6).zoom = 1.0375 ∧
    (calculateTargetCamera ⟨1, true, ZoomSpeed.default⟩
        [⟨EventType.click, 5, 2, 0.5, 0.5, none, none, 2⟩] 6).zoom = 2 ∧
    (1.0375 : ℚ) ≠ 2 := by
  norm_num [calculateTargetCamera, calculateTargetCameraRaw, findPreZoomEvent,
    findActiveEvent, List.find?, holdPose, transitionPose, anticipationPose,
    transitionDuration, effectiveEventTarget, easeOutQuad, clamp, lerp]

/-- C2 amended: the precedence is the reverse of the claim — with autozoom on,
an event whose anticipation window contains `t` takes precedence (its
anticipation pose is returned regardless of any active event), and the active
event's transition/hold branches are evaluated only when no anticipation window
contains `t`. -/
theorem anticipation_precedence :
    (∀ (config : EditorConfig) (events : List ZoomEvent) (t : ℚ) (e : ZoomEvent),
        config.autoZoom = true →
        findPreZoomEvent events t = some e →
        calculateTargetCameraRaw config events t = anticipationPose config.zoom e t) ∧
    (∀ (config : EditorConfig) (events : List ZoomEvent) (t : ℚ) (e : ZoomEvent),
        config.autoZoom = true →
        findPreZoomEvent events t = none →
        findActiveEvent events t = some e →
        calculateTargetCameraRaw config events t =
          if t - e.startTime < transitionDuration then
            transitionPose config.zoom e (t - e.startTime)
          else holdPose e (t - e.startTime)) :=
  ⟨fun config events t e hauto hpre => raw_of_preZoom config events t e hauto hpre,
   fun config events t e hauto hpre hact => raw_of_active config events t e hauto hpre hact⟩

/-- C2 witness: the amended precedence at the counterexample input — the
anticipation pose of the event starting at 6.1 is returned at `t = 6` even
though the event starting at 5 is active. -/
theorem anticipation_precedence_witness :
    calculateTargetCameraRaw ⟨1, true, ZoomSpeed.default⟩
        [⟨EventType.click, 5, 2, 0.5, 0.5, none, none, 2⟩,
         ⟨EventType.click, 6.1, 1, 0.9, 0.9, none, none, 3⟩] 6 =
      anticipationPose 1 ⟨EventType.click, 6.1, 1, 0.9, 0.9, none, none, 3⟩ 6 :=
  anticipation_precedence.1 ⟨1, true, ZoomSpeed.default⟩
    [⟨EventType.click, 5, 2, 0.5, 0.5, none, none, 2⟩,
     ⟨EventType.click, 6.1, 1, 0.9, 0.9, none, none, 3⟩] 6
    ⟨EventType.click, 6.1, 1, 0.9, 0.9, none, none, 3⟩ rfl
    (by norm_num [findPreZoomEvent, List.find?])

/-- C3 counterexample: a crop resize (mode `crop_resize`) from `width = 0.2` by
`dx = -0.3` on the `br` handle yields `width = -0.1`, which is below the claimed
`0.05` floor — the floor is absent from the crop-resize branch. -/
theorem resize_floor_counterexample :
    (cropResizeRect Handle.br ⟨0.3, 0.3, 0.2, 0.2⟩ (-0.3) 0).width = -0.1 ∧
    (-0.1 : ℚ) < 0.05 := by
  norm_num [cropResizeRect, Handle.hasL, Handle.hasR, Handle.hasT, Handle.hasB]

/-- C3 amended: the handle-dependent edge adjustments are as claimed in both
resize modes, but the `0.05` floor on width and height is applied only by the
overlay-resize branch; the crop-resize branch passes width and height through
unfloored (so a crop resize can drive them below `0.05`, even negative).  In
particular, resizing an overlay from `width = 0.2` by `dx = -0.3` yields
`width = 0.05`. -/
theorem resize_floor_amended :
    (∀ (handle : Handle) (initial : Rect) (dx dy : ℚ),
        0.05 ≤ (resizeOverlayRect handle initial dx dy).width ∧
        0.05 ≤ (resizeOverlayRect handle initial dx dy).height) ∧
    (resizeOverlayRect Handle.br ⟨0.3, 0.3, 0.2, 0.2⟩ (-0.3) 0).width = 0.05 ∧
    (∀ (initial : Rect) (dx dy : ℚ),
        (cropResizeRect Handle.br initial dx dy).width = initial.width + dx ∧
        (cropResizeRect Handle.br initial dx dy).height = initial.height + dy) ∧
    (∀ (initial : Rect) (dx dy : ℚ),
        (cropResizeRect Handle.tl initial dx dy).width = initial.width - dx ∧
        (cropResizeRect Handle.tl initial dx dy).height = initial.height - dy ∧
        (cropResizeRect Handle.tl initial dx dy).x = max 0 (initial.x + dx) ∧
        (cropResizeRect Handle.tl initial dx dy).y = max 0 (initial.y + dy)) ∧
    (∀ (initial : Rect) (dx dy : ℚ),
        (resizeOverlayRect Handle.tl initial dx dy).x = initial.x + dx ∧
        (resizeOverlayRect Handle.tl initial dx dy).y = initial.y + dy) := by
  refine ⟨?_, ?_, ?_, ?_, ?_⟩
  · intro handle initial dx dy
    cases handle <;>
      exact ⟨floor_point05_le _, floor_point05_le _⟩
  · norm_num [resizeOverlayRect, Handle.hasL, Handle.hasR, Handle.hasT, Handle.hasB]
  · intro initial dx dy
    exact ⟨rfl, rfl⟩
  · intro initial dx dy
    exact ⟨rfl, rfl, rfl, rfl⟩
  · intro initial dx dy
    exact ⟨rfl, rfl⟩

/-- C4: while paused — at the instant of pausing and on any accepted seek or
scrub delivered while not playing — the current camera is set exactly to the
solver's target pose for the current time, with no lerp: the pause snap is
independent of the previous current pose, and the paused time-update path
stores exactly `calculateTargetCamera` of the delivered time. -/
theorem paused_snap :
    (∀ (config : EditorConfig) (events : List ZoomEvent) (prev : CameraPose) (t : ℚ),
        pauseEffect config events prev t = calculateTargetCamera config events t) ∧
    (∀ (config : EditorConfig) (events : List ZoomEvent) (prev1 prev2 : CameraPose) (t : ℚ),
        pauseEffect config events prev1 t = pauseEffect config events prev2 t) ∧
    (∀ (config : EditorConfig) (events : List ZoomEvent) (q : ℚ),
        ¬ (1000000 : ℚ) < q →
        handleTimeUpdate config events false (JSNumber.finite q) =
          some ⟨q, some (calculateTargetCamera config events q)⟩) := by
  refine ⟨fun _ _ _ _ => rfl, fun _ _ _ _ _ => rfl, ?_⟩
  intro config events q h
  simp [handleTimeUpdate, jsIsFinite, jsGtConst, jsToRat, h]

/-- C4 witness: a seek to `t = 3` while paused snaps the camera to the solver
target for `t = 3`. -/
theorem paused_snap_witness :
    handleTimeUpdate ⟨1, true, ZoomSpeed.default⟩ [] false (JSNumber.finite 3) =
      some ⟨3, some (calculateTargetCamera ⟨1, true, ZoomSpeed.default⟩ [] 3)⟩ :=
  paused_snap.2.2 ⟨1, true, ZoomSpeed.default⟩ [] 3 (by norm_num)

/-- C5: for an active drag event with both ends defined, the effective camera
target equals `lerp(event.x, event.xEnd, clamp(timeInEvent/duration, 0, 1))`
(symmetrically for `y`) whenever `0 ≤ timeInEvent` — and this effective target
is what the solver's position uses in both the transition-in phase (eased from
center) and the hold phase (taken exactly).  For the event
`{type: drag, start: 11, duration: 4, x: 0.2, xEnd: 0.8}` at `t = 13`
(`timeInEvent = 2`), the solved `x` is `0.5`. -/
theorem drag_effective_target :
    (∀ (e : ZoomEvent) (xE yE timeInEvent : ℚ),
        e.type = EventType.drag → e.xEnd = some xE → e.yEnd = some yE →
        0 ≤ timeInEvent → 0 < e.duration →
        effectiveEventTarget e timeInEvent =
          (lerp e.x xE (clamp (timeInEvent / e.duration) 0 1),
           lerp e.y yE (clamp (timeInEvent / e.duration) 0 1))) ∧
    (∀ (config : EditorConfig) (events : List ZoomEvent) (t : ℚ) (e : ZoomEvent),
        config.autoZoom = true →
        findPreZoomEvent events t = none →
        findActiveEvent events t = some e →
        (t - e.startTime < transitionDuration →
            (calculateTargetCameraRaw config events t).x =
              0.5 + ((effectiveEventTarget e (t - e.startTime)).1 - 0.5) *
                easeOutQuad ((t - e.startTime) / transitionDuration) ∧
            (calculateTargetCameraRaw config events t).y =
              0.5 + ((effectiveEventTarget e (t - e.startTime)).2 - 0.5) *
                easeOutQuad ((t - e.startTime) / transitionDuration)) ∧
        (transitionDuration ≤ t - e.startTime →
            (calculateTargetCameraRaw config events t).x =
              (effectiveEventTarget e (t - e.startTime)).1 ∧
            (calculateTargetCameraRaw config events t).y =
              (effectiveEventTarget e (t - e.startTime)).2)) ∧
    calculateTargetCamera ⟨1, true, ZoomSpeed.default⟩
        [⟨EventType.drag, 11, 4, 0.2, 0.3, some 0.8, some 0.7, 2⟩] 13 =
      ⟨0.5, 0.5, 2⟩ := by
  refine ⟨?_, ?_, ?_⟩
  · intro e xE yE timeInEvent hty hxE hyE ht hd
    have hp : 0 ≤ timeInEvent / e.duration := div_nonneg ht hd.le
    have hc : clamp (timeInEvent / e.duration) 0 1 = min 1 (timeInEvent / e.duration) := by
      rw [clamp]
      exact max_eq_right (le_min (by norm_num) hp)
    rcases e with ⟨ty, st, du, x, y, xEo, yEo, sc⟩
    dsimp at hty hxE hyE hd hp hc ⊢
    subst hty hxE hyE
    simp [effectiveEventTarget, hc]
  · intro config events t e hauto hpre hact
    rw [raw_of_active config events t e hauto hpre hact]
    constructor
    · intro h
      rw [if_pos h]
      exact ⟨rfl, rfl⟩
    · intro h
      rw [if_neg (not_lt.mpr h)]
      exact ⟨rfl, rfl⟩
  · norm_num [calculateTargetCamera, calculateTargetCameraRaw, findPreZoomEvent,
      findActiveEvent, List.find?, holdPose, transitionPose, transitionDuration,
      effectiveEventTarget, clamp, lerp]

/-- C5 witness: the drag formula at the scenario-D event and `timeInEvent = 2`
(progress `0.5`), giving effective target `(0.5, 0.5)`. -/
theorem drag_effective_target_witness :
    effectiveEventTarget ⟨EventType.drag, 11, 4, 0.2, 0.3, some 0.8, some 0.7, 2⟩ 2 =
      (lerp 0.2 0.8 (clamp (2 / 4) 0 1), lerp 0.3 0.7 (clamp (2 / 4) 0 1)) :=
  drag_effective_target.1 ⟨EventType.drag, 11, 4, 0.2, 0.3, some 0.8, some 0.7, 2⟩
    0.8 0.7 2 rfl rfl rfl (by norm_num) (by norm_num)

/-- C6: while playing, each frame advances the current pose componentwise by
`lerp(currentPose, targetPose, factor)` with factor `0.03/0.08/0.15` for
`slow/default/fast`; under a constant target the residual shrinks by the ratio
`1 - factor` each frame. -/
theorem integrator_lerp_step :
    getLerpFactor ZoomSpeed.slow = 0.03 ∧
    getLerpFactor ZoomSpeed.default = 0.08 ∧
    getLerpFactor ZoomSpeed.fast = 0.15 ∧
    (∀ (config : EditorConfig) (events : List ZoomEvent) (cur : CameraPose) (t : ℚ),
        animateStep config events cur t =
          { x := lerp cur.x (calculateTargetCamera config events t).x
                  (getLerpFactor config.zoomSpeed)
            y := lerp cur.y (calculateTargetCamera config events t).y
                  (getLerpFactor config.zoomSpeed)
            zoom := lerp cur.zoom (calculateTargetCamera config events t).zoom
                  (getLerpFactor config.zoomSpeed) }) ∧
    (∀ c tgt f : ℚ, tgt - lerp c tgt f = (1 - f) * (tgt - c)) := by
  refine ⟨rfl, rfl, rfl, fun _ _ _ _ => rfl, ?_⟩
  intro c tgt f
  rw [lerp]
  ring

/-- C7: during the transition-in phase of an active event, with
`u = timeInEvent / 0.35` and `easeOutBack(u) = 1 + c3(u-1)^3 + c1(u-1)^2`
(`c1 = 1.70158, c3 = 2.70158`), the returned (pre-clamp) zoom is
`(staticZoom + 0.05) + (scale - (staticZoom + 0.05)) * easeOutBack(u)` and the
pre-clamp position eases from center toward the effective target with
`easeOutQuad(u)`; for the event `{start: 2, duration: 2.5, scale: 1.6}` with
static zoom 1, the zoom at `t = 2.0` is exactly `1.05` and at `t = 2.35`
exactly `1.6` (within the claimed `±0.02`). -/
theorem transition_in_formula :
    (∀ u : ℚ, easeOutBack u = 1 + 2.70158 * (u - 1) ^ 3 + 1.70158 * (u - 1) ^ 2) ∧
    (∀ (config : EditorConfig) (events : List ZoomEvent) (t : ℚ) (e : ZoomEvent),
        config.autoZoom = true →
        findPreZoomEvent events t = none →
        findActiveEvent events t = some e →
        t - e.startTime < transitionDuration →
        (calculateTargetCamera config events t).zoom =
          (config.zoom + 0.05) + (e.scale - (config.zoom + 0.05)) *
            easeOutBack ((t - e.startTime) / 0.35) ∧
        (calculateTargetCameraRaw config events t).x =
          0.5 + ((effectiveEventTarget e (t - e.startTime)).1 - 0.5) *
            easeOutQuad ((t - e.startTime) / 0.35)) ∧
    (calculateTargetCamera ⟨1, true, ZoomSpeed.default⟩
        [⟨EventType.click, 2, 2.5, 0.15, 0.2, none, none, 1.6⟩] 2).zoom = 1.05 ∧
    (calculateTargetCamera ⟨1, true, ZoomSpeed.default⟩
        [⟨EventType.click, 2, 2.5, 0.15, 0.2, none, none, 1.6⟩] 2.35).zoom = 1.6 := by
  refine ⟨?_, ?_, ?_, ?_⟩
  · intro u
    rw [easeOutBack]
    norm_num
  · intro config events t e hauto hpre hact h
    have hraw := raw_of_active config events t e hauto hpre hact
    rw [if_pos h] at hraw
    constructor
    · rw [calculateTargetCamera_zoom, hraw]
      rfl
    · rw [hraw]
      rfl
  · norm_num [calculateTargetCamera, calculateTargetCameraRaw, findPreZoomEvent,
      findActiveEvent, List.find?, transitionPose, transitionDuration,
      effectiveEventTarget, easeOutBack, easeOutQuad, clamp]
  · norm_num [calculateTargetCamera, calculateTargetCameraRaw, findPreZoomEvent,
      findActiveEvent, List.find?, holdPose, transitionDuration,
      effectiveEventTarget, clamp]

/-- C7 witness: the transition-in zoom and position formulas instantiated at
`t = 2.0` for the scenario-B event (where `timeInEvent = 0`). -/
theorem transition_in_formula_witness :
    (calculateTargetCamera ⟨1, true, ZoomSpeed.default⟩
        [⟨EventType.click, 2, 2.5, 0.15, 0.2, none, none, 1.6⟩] 2).zoom =
      (1 + 0.05) + ((1.6 : ℚ) - (1 + 0.05)) * easeOutBack ((2 - 2) / 0.35) ∧
    (calculateTargetCameraRaw ⟨1, true, ZoomSpeed.default⟩
        [⟨EventType.click, 2, 2.5, 0.15, 0.2, none, none, 1.6⟩] 2).x =
      0.5 + ((effectiveEventTarget
          ⟨EventType.click, 2, 2.5, 0.15, 0.2, none, none, 1.6⟩ (2 - 2)).1 - 0.5) *
        easeOutQuad ((2 - 2) / 0.35) :=
  transition_in_formula.2.1 ⟨1, true, ZoomSpeed.default⟩
    [⟨EventType.click, 2, 2.5, 0.15, 0.2, none, none, 1.6⟩] 2
    ⟨EventType.click, 2, 2.5, 0.15, 0.2, none, none, 1.6⟩ rfl
    (by norm_num [findPreZoomEvent, List.find?])
    (by norm_num [findActiveEvent, List.find?])
    (by norm_num [transitionDuration])

/-- C8 counterexample: the delivered time `-1` is finite, negative and not
above `1e6`; the handler accepts it — the time is forwarded and the camera is
recomputed — contradicting the claim that negative values are rejected. -/
theorem negative_time_not_rejected :
    handleTimeUpdate ⟨1, true, ZoomSpeed.default⟩ [] false (JSNumber.finite (-1)) =
      some ⟨-1, some ⟨0.5, 0.5, 1⟩⟩ ∧ (-1 : ℚ) < 0 := by
  norm_num [handleTimeUpdate, jsIsFinite, jsGtConst, jsToRat, calculateTargetCamera,
    calculateTargetCameraRaw, findPreZoomEvent, findActiveEvent, List.find?, clamp]

/-- C8 amended: the time-update path rejects exactly the non-finite values
(NaN, ±Infinity) and values greater than `1e6`; negative finite values are not
rejected and do reach the solver. -/
theorem time_update_guard :
    ∀ (config : EditorConfig) (events : List ZoomEvent) (playing : Bool) (t : JSNumber),
      handleTimeUpdate config events playing t = none ↔
        jsIsFinite t = false ∨ jsGtConst t 1000000 = true := by
  intro config events playing t
  cases t
  case nan => simp [handleTimeUpdate, jsIsFinite, jsGtConst]
  case posInf => simp [handleTimeUpdate, jsIsFinite, jsGtConst]
  case negInf => simp [handleTimeUpdate, jsIsFinite, jsGtConst]
  case finite q =>
    by_cases h : (1000000 : ℚ) < q <;>
      simp [handleTimeUpdate, jsIsFinite, jsGtConst, h]

/-- C8 witness: the guard at `NaN` — the update is rejected. -/
theorem time_update_guard_witness :
    handleTimeUpdate ⟨1, true, ZoomSpeed.default⟩ [] false JSNumber.nan = none :=
  (time_update_guard ⟨1, true, ZoomSpeed.default⟩ [] false JSNumber.nan).mpr
    (Or.inl rfl)

/-- C9: the solver target is continuous at the transition-in/hold boundary:
`easeOutBack 1 = 1` and `easeOutQuad 1 = 1` exactly, so for a non-drag event
the transition-in branch evaluated at `timeInEvent = 0.35` coincides with the
hold branch (zoom `= scale`, position `= event target`). -/
theorem phase_boundary_continuity :
    easeOutBack 1 = 1 ∧ easeOutQuad 1 = 1 ∧
    (∀ (staticZoom : ℚ) (e : ZoomEvent), e.type ≠ EventType.drag →
        transitionPose staticZoom e transitionDuration = holdPose e transitionDuration ∧
        holdPose e transitionDuration = ⟨e.x, e.y, e.scale⟩) := by
  have hb : easeOutBack 1 = 1 := by rw [easeOutBack]; norm_num
  have hq : easeOutQuad 1 = 1 := by rw [easeOutQuad]; norm_num
  refine ⟨hb, hq, ?_⟩
  intro staticZoom e h
  have he := effectiveEventTarget_of_ne_drag e transitionDuration h
  have hone : transitionDuration / transitionDuration = 1 := by
    rw [transitionDuration]; norm_num
  have hhold : holdPose e transitionDuration = ⟨e.x, e.y, e.scale⟩ := by
    simp only [holdPose, he]
  refine ⟨?_, hhold⟩
  rw [hhold]
  simp only [transitionPose, he, hone, hb, hq, CameraPose.mk.injEq]
  refine ⟨by ring, by ring, by ring⟩

/-- C9 witness: the boundary agreement at the scenario-B event with static
zoom 1. -/
theorem phase_boundary_continuity_witness :
    transitionPose 1 ⟨EventType.click, 2, 2.5, 0.15, 0.2, none, none, 1.6⟩
        transitionDuration =
      holdPose ⟨EventType.click, 2, 2.5, 0.15, 0.2, none, none, 1.6⟩
        transitionDuration ∧
    holdPose ⟨EventType.click, 2, 2.5, 0.15, 0.2, none, none, 1.6⟩
        transitionDuration = ⟨0.15, 0.2, 1.6⟩ :=
  phase_boundary_continuity.2.2 1
    ⟨EventType.click, 2, 2.5, 0.15, 0.2, none, none, 1.6⟩
    (by intro hcontra; exact EventType.noConfusion hcontra)

/-- C10: every crop-resize update pins the resulting crop `x` and `y` at
`Math.max(0, ·)`, so the top-left corner never goes negative; the right and
bottom extents are unconstrained — a crop resize can make `x + width` exceed 1. -/
theorem crop_resize_origin_clamp :
    (∀ (handle : Handle) (initial : Rect) (dx dy : ℚ),
        0 ≤ (cropResizeRect handle initial dx dy).x ∧
        0 ≤ (cropResizeRect handle initial dx dy).y) ∧
    ((cropResizeRect Handle.br ⟨0.5, 0.5, 0.4, 0.4⟩ 0.5 0).x +
        (cropResizeRect Handle.br ⟨0.5, 0.5, 0.4, 0.4⟩ 0.5 0).width = 1.4 ∧
      (1 : ℚ) < 1.4) := by
  constructor
  · intro handle initial dx dy
    exact ⟨le_max_left _ _, le_max_left _ _⟩
  · norm_num [cropResizeRect, Handle.hasL, Handle.hasR, Handle.hasT, Handle.hasB]
